import Mathlib

/-!
# goconfig: settings file, SSH connection attempt and log pane

A shallow embedding of `main.go`.  Go strings are Lean strings, `[]byte(s)` is
`String.toUTF8`, a Go `error` is a value carrying its `Error()` text and `nil`
is `none`.  Library calls whose occurrence matters (reading a file, decoding
it, dialling, closing a connection, writing to a file chosen in the save
dialog, the standard logger) append an `Event` to the trace of the `World`;
what the outside answers is read from an `Env`.  The widgets are plain
values: `Entry.SetText` replaces the `Text` of an entry.  The decoding of
encoding/json is modelled on parsed documents, the parser itself is part of
the `Env`.
-/

namespace GoConfig

/-! ## Values of the Go runtime and of the libraries called by the program -/

/-- A Go error value; the program only ever looks at its message. -/
structure GoError where
  Error : String
deriving DecidableEq, Repr

/-- Handle of an SSH client connection returned by a successful dial. -/
abbrev ConnId := Nat

/-- The authentication methods of the ssh package that a client configuration may list. -/
inductive AuthMethod where
  | Password (secret : String)
  | PublicKeys (signers : List String)
  | KeyboardInteractive
deriving DecidableEq, Repr

/-- The ssh host-key callback type: host name, remote address and the key the
server presented; `none` (nil) accepts the key. -/
abbrev HostKeyCallback := String → String → ByteArray → Option GoError

/-- The function `ssh.InsecureIgnoreHostKey()`: its callback returns nil for every key. -/
def InsecureIgnoreHostKey : HostKeyCallback := fun _ _ _ => none

/-- The fields of `ssh.ClientConfig` that the program sets. -/
structure ClientConfig where
  User : String
  Auth : List AuthMethod
  HostKeyCallback : HostKeyCallback

/-- A non-nil `fyne.URIWriteCloser` handed over by the file-save dialog. -/
structure URIWriteCloser where
  uri : String
deriving DecidableEq, Repr

/-- A parsed JSON document. -/
inductive JSON where
  | null
  | bool (b : Bool)
  | number (literal : String)
  | string (s : String)
  | array (elems : List JSON)
  | object (members : List (String × JSON))

/-- Calls that leave the process, in the order they are made. -/
inductive Event where
  | readFile (filename : String)
  | unmarshal (data : ByteArray)
  | dial (network addr : String) (config : ClientConfig)
  | close (conn : ConnId)
  | println (args : List String)
  | write (file : URIWriteCloser) (data : ByteArray)

/-- What the outside world answers.  `dial` and `write` see the calls made so
far, so two attempts need not get the same answer. -/
structure Env where
  readFile : String → Except GoError ByteArray
  parseJSON : ByteArray → Except GoError JSON
  dial : List Event → String → String → ClientConfig → Except GoError ConnId
  write : List Event → URIWriteCloser → ByteArray → Option GoError

/-- Open SSH connections and the calls made so far. -/
structure World where
  conns : List ConnId
  trace : List Event

/-- Record one call. -/
def World.emit (w : World) (e : Event) : World :=
  { w with trace := w.trace ++ [e] }

/-! ## Settings -/

/-- Settings structure to hold the configuration. -/
structure Settings where
  IP : String
  Username : String
  Password : String
deriving DecidableEq, Repr

/-- The three fields of `Settings`, named by their json tags. -/
inductive Field where
  | IP
  | Username
  | Password
deriving DecidableEq, Repr

/-- The json tag of a field. -/
def Field.tag : Field → String
  | .IP => "ip"
  | .Username => "username"
  | .Password => "password"

/-- Read a field of the settings. -/
def Settings.get (s : Settings) : Field → String
  | .IP => s.IP
  | .Username => s.Username
  | .Password => s.Password

/-- Assign a field of the settings. -/
def Settings.set (s : Settings) (f : Field) (v : String) : Settings :=
  match f with
  | .IP => { s with IP := v }
  | .Username => { s with Username := v }
  | .Password => { s with Password := v }

/-- Case folding of one character as encoding/json applies it to object keys:
on the letters of the three tags the classes are the two ASCII cases, plus
the long s (U+017F) with `s` and the Kelvin sign (U+212A) with `k`. -/
def foldRune (c : Char) : Char :=
  if 'a' ≤ c ∧ c ≤ 'z' then Char.ofNat (c.toNat - 32)
  else if c = Char.ofNat 0x17F then 'S'
  else if c = Char.ofNat 0x212A then 'K'
  else c

/-- Case folding of an object key. -/
def foldName (key : String) : String := ⟨key.data.map foldRune⟩

/-- The struct field an object key is stored into: an exact match with a tag
is preferred, a match up to case is accepted, any other key is skipped. -/
def fieldFor (key : String) : Option Field :=
  if key = Field.tag .IP then some .IP
  else if key = Field.tag .Username then some .Username
  else if key = Field.tag .Password then some .Password
  else if foldName key = foldName (Field.tag .IP) then some .IP
  else if foldName key = foldName (Field.tag .Username) then some .Username
  else if foldName key = foldName (Field.tag .Password) then some .Password
  else none

/-- The name encoding/json gives to the kind of a value in its type errors. -/
def JSON.kind : JSON → String
  | .null => "null"
  | .bool _ => "bool"
  | .number _ => "number"
  | .string _ => "string"
  | .array _ => "array"
  | .object _ => "object"

/-- The `UnmarshalTypeError` for a value that cannot be stored in a string
field, with the message of the classic decoder, which names the field by its
tag; other decoders word the message differently, and only the presence of
the error is used below. -/
def fieldTypeError (v : JSON) (f : Field) : GoError :=
  ⟨"json: cannot unmarshal " ++ v.kind ++ " into Go struct field Settings." ++ f.tag ++
    " of type string"⟩

/-- The `UnmarshalTypeError` for a document that is not an object. -/
def valueTypeError (v : JSON) : GoError :=
  ⟨"json: cannot unmarshal " ++ v.kind ++ " into Go value of type main.Settings"⟩

/-- Decoding of one object member: a string is stored in the matching field,
null leaves the field alone, any other value is skipped and the first such
type error is kept while decoding goes on. -/
def storeMember (st : Settings × Option GoError) (m : String × JSON) : Settings × Option GoError :=
  match fieldFor m.1 with
  | none => st
  | some f =>
    match m.2 with
    | .string s => (st.1.set f s, st.2)
    | .null => st
    | v => (st.1, match st.2 with
                  | some e => some e
                  | none => some (fieldTypeError v f))

/-- Decoding of a parsed document into a `Settings` value. -/
def decodeSettings (doc : JSON) (settings : Settings) : Settings × Option GoError :=
  match doc with
  | .object members => members.foldl storeMember (settings, none)
  | .null => (settings, none)
  | v => (settings, some (valueTypeError v))

/-- The call `json.Unmarshal(data, &settings)`: the syntax of the whole input
is checked first and nothing is stored when it is invalid. -/
def jsonUnmarshal (env : Env) (data : ByteArray) (settings : Settings) : Settings × Option GoError :=
  match env.parseJSON data with
  | .error err => (settings, some err)
  | .ok doc => decodeSettings doc settings

/-- LoadSettings reads settings from a JSON file. -/
def LoadSettings (env : Env) (filename : String) (w : World) :
    (Settings × Option GoError) × World :=
  let settings : Settings := ⟨"", "", ""⟩
  -- Read the file
  let w1 := w.emit (.readFile filename)
  match env.readFile filename with
  | .error err => ((settings, some err), w1)
  | .ok data =>
    -- Unmarshal JSON into settings struct
    (jsonUnmarshal env data settings, w1.emit (.unmarshal data))

/-! ## SSH connection attempt -/

/-- The call `ssh.Dial(network, addr, config)`. -/
def sshDial (env : Env) (network addr : String) (config : ClientConfig) (w : World) :
    Except GoError ConnId × World :=
  let w1 := w.emit (.dial network addr config)
  match env.dial w.trace network addr config with
  | .error err => (.error err, w1)
  | .ok conn => (.ok conn, { w1 with conns := conn :: w1.conns })

/-- The call `conn.Close()`; the program drops its result. -/
def connClose (conn : ConnId) (w : World) : World :=
  { conns := w.conns.filter (fun c => c ≠ conn), trace := w.trace ++ [.close conn] }

/-- ConnectToSSH establishes an SSH connection using the provided credentials. -/
def ConnectToSSH (env : Env) (ip username password : String) (w : World) :
    Option GoError × World :=
  -- Configure the SSH client
  let config : ClientConfig :=
    { User := username
      Auth := [AuthMethod.Password password]
      HostKeyCallback := InsecureIgnoreHostKey }
  -- Establish the SSH connection
  match sshDial env "tcp" (ip ++ ":22") config w with
  | (.error err, w1) => (some err, w1)
  | (.ok conn, w1) =>
    -- the deferred conn.Close() runs when the function returns nil
    (none, connClose conn w1)

/-! ## Log pane -/

/-- The state of a `widget.Entry` that the program touches. -/
structure Entry where
  Text : String
  PlaceHolder : String
  MultiLine : Bool
  Password : Bool
deriving DecidableEq, Repr

/-- The constructor `widget.NewEntry()`. -/
def NewEntry : Entry := ⟨"", "", false, false⟩

/-- The constructor `widget.NewMultiLineEntry()`. -/
def NewMultiLineEntry : Entry := ⟨"", "", true, false⟩

/-- The constructor `widget.NewPasswordEntry()`. -/
def NewPasswordEntry : Entry := ⟨"", "", false, true⟩

/-- The method `SetText` of an entry. -/
def Entry.SetText (e : Entry) (text : String) : Entry := { e with Text := text }

/-- The method `SetPlaceHolder` of an entry. -/
def Entry.SetPlaceHolder (e : Entry) (text : String) : Entry := { e with PlaceHolder := text }

/-- UpdateLog appends a log message to the log entry. -/
def UpdateLog (logEntry : Entry) (message : String) : Entry :=
  logEntry.SetText (logEntry.Text ++ "\n" ++ message)

/-- The widgets that the callbacks of `main` capture, with the world. -/
structure App where
  ipEntry : Entry
  usernameEntry : Entry
  passwordEntry : Entry
  frequencyEntry : Entry
  logEntry : Entry
  world : World

/-- The callback that `SaveLog` passes to `dialog.ShowFileSave`, run with the
sink and the error the dialog delivers. -/
def saveLogCallback (env : Env) (file : Option URIWriteCloser) (err : Option GoError)
    (a : App) : App :=
  match err, file with
  | none, some f =>
    -- Write log entry contents to the file
    let data := a.logEntry.Text.toUTF8
    let w1 := a.world.emit (.write f data)
    match env.write a.world.trace f data with
    | some werr =>
      { a with world := w1, logEntry := UpdateLog a.logEntry ("Error saving log: " ++ werr.Error) }
    | none =>
      { a with world := w1, logEntry := UpdateLog a.logEntry "Log saved successfully." }
  | _, _ =>
    -- err != nil || file == nil
    { a with logEntry := UpdateLog a.logEntry "File save canceled or error occurred." }

/-- SaveLog saves the log entry contents to a specified file: the dialog is
shown and later answers with a sink and an error. -/
def SaveLog (env : Env) (answer : Option URIWriteCloser × Option GoError) (a : App) : App :=
  saveLogCallback env answer.1 answer.2 a

/-- The handler of the "Connect" button. -/
def connectButtonTapped (env : Env) (a : App) : App :=
  let ip := a.ipEntry.Text
  let username := a.usernameEntry.Text
  let password := a.passwordEntry.Text
  -- Attempt to connect via SSH
  match ConnectToSSH env ip username password a.world with
  | (some err, w1) =>
    { a with
      world := w1.emit (.println ["Connection failed:", err.Error])
      logEntry := UpdateLog a.logEntry ("Connection failed: " ++ err.Error) }
  | (none, w1) =>
    { a with
      world := w1.emit (.println ["Connected successfully to:", ip, "with username:", username])
      logEntry := UpdateLog a.logEntry
        ("Connected successfully to: " ++ ip ++ " with username: " ++ username) }

/-- The log entry field as `main` creates it. -/
def initialLogEntry : Entry :=
  (NewMultiLineEntry.SetPlaceHolder "Logs will appear here...").SetText "Log output:\n"

/-- The part of `main` that runs before the window is shown; a failure to
load the settings ends the program through `log.Fatalf`. -/
def mainStartup (env : Env) (w : World) : Except String App :=
  match LoadSettings env "settings.json" w with
  | ((_, some err), _) => .error ("Failed to load settings: " ++ err.Error)
  | ((settings, none), w1) =>
    .ok { ipEntry := NewEntry.SetText settings.IP
          usernameEntry := NewEntry.SetText settings.Username
          passwordEntry := NewPasswordEntry.SetText settings.Password
          frequencyEntry := NewEntry
          logEntry := initialLogEntry
          world := w1 }

/-! ## Concrete surroundings used to exercise the program -/

/-- Surroundings of the scenario with the settings document naming host
10.0.0.5, user root and password x, and no host reachable: every dial is refused. -/
def scenarioEnv : Env where
  readFile := fun _ =>
    .ok ("\x7b\x22ip\x22:\x2210.0.0.5\x22,\x22username\x22:\x22root\x22," ++
      "\x22password\x22:\x22x\x22\x7d").toUTF8
  parseJSON := fun _ =>
    .ok (.object [("ip", .string "10.0.0.5"), ("username", .string "root"),
      ("password", .string "x")])
  dial := fun _ network addr _ =>
    .error ⟨"dial " ++ network ++ " " ++ addr ++ ": connect: connection refused"⟩
  write := fun _ _ _ => none

/-- Surroundings in which the host answers: every dial succeeds with connection 7. -/
def reachableEnv : Env :=
  { scenarioEnv with dial := fun _ _ _ _ => .ok 7 }

/-- Surroundings whose settings document is the empty object. -/
def emptyDocEnv : Env :=
  { scenarioEnv with
    readFile := fun _ => .ok "\x7b\x7d".toUTF8
    parseJSON := fun _ => .ok (.object []) }

/-- Surroundings whose settings document spells the host key in capitals. -/
def capitalKeyEnv : Env :=
  { scenarioEnv with
    readFile := fun _ => .ok "\x7b\x22IP\x22:\x22192.168.1.1\x22\x7d".toUTF8
    parseJSON := fun _ => .ok (.object [("IP", .string "192.168.1.1")]) }

/-- Surroundings in which the settings file does not exist. -/
def missingFileEnv : Env :=
  { scenarioEnv with
    readFile := fun name => .error ⟨"open " ++ name ++ ": no such file or directory"⟩ }

/-- Surroundings whose settings file is cut short, so that the syntax check fails. -/
def malformedEnv : Env :=
  { scenarioEnv with
    readFile := fun _ => .ok "\x7b\x22ip\x22:".toUTF8
    parseJSON := fun _ => .error ⟨"unexpected end of JSON input"⟩ }

/-- Surroundings whose settings document gives a number for the host and a string for the user. -/
def mistypedEnv : Env :=
  { scenarioEnv with
    readFile := fun _ =>
      .ok "\x7b\x22ip\x22:5,\x22username\x22:\x22root\x22\x7d".toUTF8
    parseJSON := fun _ =>
      .ok (.object [("ip", .number "5"), ("username", .string "root")]) }

/-- A world in which nothing has happened yet. -/
def World.start : World := ⟨[], []⟩

/-- An application state with the given host, user, password and log text. -/
def appWith (ip username password log : String) : App :=
  { ipEntry := NewEntry.SetText ip
    usernameEntry := NewEntry.SetText username
    passwordEntry := NewPasswordEntry.SetText password
    frequencyEntry := NewEntry
    logEntry := NewMultiLineEntry.SetText log
    world := World.start }

/-! ## Observations used to state the properties -/

/-- The text `s` has an occurrence of `sub`. -/
def Contains (s sub : String) : Prop := sub.data <:+: s.data

instance (s sub : String) : Decidable (Contains s sub) := by
  unfold Contains; infer_instance

/-- The lines of a text, split at the newline character. -/
def lines (s : String) : List String := (s.data.splitOn '\n').map String.mk

/-- The byte slices passed to `Write`, in call order. -/
def writes (t : List Event) : List ByteArray :=
  t.filterMap fun e =>
    match e with
    | .write _ data => some data
    | _ => none

/-- The number of dial attempts in a trace. -/
def dialCount (t : List Event) : Nat :=
  (t.filter fun e =>
    match e with
    | .dial _ _ _ => true
    | _ => false).length

/-- The connections closed in a trace. -/
def closed (t : List Event) : List ConnId :=
  t.filterMap fun e =>
    match e with
    | .close c => some c
    | _ => none

/-- The number of decode attempts in a trace. -/
def unmarshalCount (t : List Event) : Nat :=
  (t.filter fun e =>
    match e with
    | .unmarshal _ => true
    | _ => false).length

/-! ## Properties -/

/-- Strings with the same front part removed: appending is injective on the right. -/
theorem string_append_left_cancel (s t u : String) (h : s ++ t = s ++ u) : t = u := by
  have h1 : (s ++ t).data = (s ++ u).data := by rw [h]
  simp only [String.data_append] at h1
  exact String.ext (List.append_cancel_left h1)

/-- The text of the log after one `UpdateLog`. -/
theorem updateLog_text (logEntry : Entry) (m : String) :
    (UpdateLog logEntry m).Text = logEntry.Text ++ "\n" ++ m := rfl

/-- C1: calling UpdateLog with a and then with b leaves the log text equal to
the old text, a newline, a, a newline and b; so the text has an occurrence of
a that ends before an occurrence of b begins. -/
theorem C1_updateLog_order_preserving (logEntry : Entry) (a b : String) :
    (UpdateLog (UpdateLog logEntry a) b).Text = logEntry.Text ++ "\n" ++ a ++ "\n" ++ b ∧
    ∃ p q r : String, (UpdateLog (UpdateLog logEntry a) b).Text = p ++ a ++ q ++ b ++ r := by
  refine ⟨rfl, logEntry.Text ++ "\n", "\n", "", ?_⟩
  simp [UpdateLog, Entry.SetText]

/-- C2: when the save dialog delivers a sink and no error, the callback makes
exactly one Write, with the bytes of the log text as it was when the callback
started; the only other change is the status message that UpdateLog appends
to the log text afterwards, and it leaves the bytes written untouched. -/
theorem C2_saveLog_writes_text_at_call_time (env : Env) (f : URIWriteCloser) (a : App) :
    (saveLogCallback env (some f) none a).world =
      a.world.emit (Event.write f a.logEntry.Text.toUTF8) ∧
    writes (saveLogCallback env (some f) none a).world.trace =
      writes a.world.trace ++ [a.logEntry.Text.toUTF8] ∧
    ∃ status : String,
      saveLogCallback env (some f) none a =
        { a with world := a.world.emit (Event.write f a.logEntry.Text.toUTF8)
                 logEntry := UpdateLog a.logEntry status } ∧
      status = (match env.write a.world.trace f a.logEntry.Text.toUTF8 with
                | some werr => "Error saving log: " ++ werr.Error
                | none => "Log saved successfully.") := by
  unfold saveLogCallback
  cases hw : env.write a.world.trace f a.logEntry.Text.toUTF8 <;>
    simp [hw, World.emit, writes, List.filterMap_append]

/-- C3: the Connect handler calls UpdateLog once: the log goes from L to
L, a newline and a single message m, where m is the success text naming the
host and the user when ConnectToSSH returns nil, and the failure text with
the error's message otherwise. -/
theorem C3_connect_logs_exactly_one_entry (env : Env) (a : App) :
    (connectButtonTapped env a).logEntry =
      UpdateLog a.logEntry
        (match (ConnectToSSH env a.ipEntry.Text a.usernameEntry.Text a.passwordEntry.Text
            a.world).1 with
         | none => "Connected successfully to: " ++ a.ipEntry.Text ++ " with username: " ++
             a.usernameEntry.Text
         | some err => "Connection failed: " ++ err.Error) ∧
    (connectButtonTapped env a).logEntry.Text =
      a.logEntry.Text ++ "\n" ++
        (match (ConnectToSSH env a.ipEntry.Text a.usernameEntry.Text a.passwordEntry.Text
            a.world).1 with
         | none => "Connected successfully to: " ++ a.ipEntry.Text ++ " with username: " ++
             a.usernameEntry.Text
         | some err => "Connection failed: " ++ err.Error) ∧
    ∃! m : String, (connectButtonTapped env a).logEntry.Text = a.logEntry.Text ++ "\n" ++ m := by
  have key : (connectButtonTapped env a).logEntry =
      UpdateLog a.logEntry
        (match (ConnectToSSH env a.ipEntry.Text a.usernameEntry.Text a.passwordEntry.Text
            a.world).1 with
         | none => "Connected successfully to: " ++ a.ipEntry.Text ++ " with username: " ++
             a.usernameEntry.Text
         | some err => "Connection failed: " ++ err.Error) := by
    simp only [connectButtonTapped]
    rcases ConnectToSSH env a.ipEntry.Text a.usernameEntry.Text a.passwordEntry.Text
      a.world with ⟨r, w1⟩
    cases r <;> rfl
  refine ⟨key, by rw [key]; rfl, ?_⟩
  rw [key]
  refine ⟨_, rfl, ?_⟩
  intro m hm
  exact (string_append_left_cancel _ _ _ hm).symm

/-- C10: when the callback of SaveLog gets a nil sink, no call leaves the
process (nothing is written) and the log text becomes L, a newline and the
cancellation message; the callback has no result that could carry an error. -/
theorem C10_saveLog_nil_sink_logs_cancel (env : Env) (err : Option GoError) (a : App) :
    saveLogCallback env none err a =
      { a with logEntry := UpdateLog a.logEntry "File save canceled or error occurred." } ∧
    (saveLogCallback env none err a).world = a.world ∧
    writes (saveLogCallback env none err a).world.trace = writes a.world.trace ∧
    (saveLogCallback env none err a).logEntry.Text =
      a.logEntry.Text ++ "\n" ++ "File save canceled or error occurred." := by
  cases err <;> simp [saveLogCallback, UpdateLog, Entry.SetText]

/-- The value of ConnectToSSH when the dial fails. -/
theorem connectToSSH_of_dial_error (env : Env) (ip username password : String) (w : World)
    (e : GoError)
    (h : env.dial w.trace "tcp" (ip ++ ":22")
      ⟨username, [AuthMethod.Password password], InsecureIgnoreHostKey⟩ = .error e) :
    ConnectToSSH env ip username password w =
      (some e, w.emit (Event.dial "tcp" (ip ++ ":22")
        ⟨username, [AuthMethod.Password password], InsecureIgnoreHostKey⟩)) := by
  simp only [ConnectToSSH, sshDial, h]

/-- The value of ConnectToSSH when the dial succeeds. -/
theorem connectToSSH_of_dial_ok (env : Env) (ip username password : String) (w : World)
    (c : ConnId)
    (h : env.dial w.trace "tcp" (ip ++ ":22")
      ⟨username, [AuthMethod.Password password], InsecureIgnoreHostKey⟩ = .ok c) :
    ConnectToSSH env ip username password w =
      (none, connClose c
        { w.emit (Event.dial "tcp" (ip ++ ":22")
            ⟨username, [AuthMethod.Password password], InsecureIgnoreHostKey⟩) with
          conns := c :: w.conns }) := by
  simp only [ConnectToSSH, sshDial, h, World.emit]

/-- C6: the dial request built by ConnectToSSH has network tcp, address the
host followed by `:22`, the given user, one authentication method, which is
the given password, and a host-key callback that accepts every key; it is the
only dial of the call. -/
theorem C6_dial_request_shape (env : Env) (ip username password : String) (w : World) :
    ∃ (config : ClientConfig) (rest : List Event),
      (ConnectToSSH env ip username password w).2.trace =
        w.trace ++ Event.dial "tcp" (ip ++ ":22") config :: rest ∧
      dialCount rest = 0 ∧
      config.User = username ∧
      config.Auth = [AuthMethod.Password password] ∧
      ∀ (hostname remote : String) (key : ByteArray),
        config.HostKeyCallback hostname remote key = none := by
  refine ⟨⟨username, [AuthMethod.Password password], InsecureIgnoreHostKey⟩, ?_⟩
  cases h : env.dial w.trace "tcp" (ip ++ ":22")
      ⟨username, [AuthMethod.Password password], InsecureIgnoreHostKey⟩ with
  | error e =>
    rw [connectToSSH_of_dial_error env ip username password w e h]
    exact ⟨[], by simp [World.emit], rfl, rfl, rfl, fun _ _ _ => rfl⟩
  | ok c =>
    rw [connectToSSH_of_dial_ok env ip username password w c h]
    exact ⟨[Event.close c], by simp [World.emit, connClose], rfl, rfl, rfl,
      fun _ _ _ => rfl⟩

/-- C7: ConnectToSSH dials once.  It returns an error exactly when that dial
fails; the error is then the one the dial gave, nothing is closed and no
connection is opened.  When the dial succeeds the call returns nil after
closing the connection it got, which is then not among the open connections,
and no connection is open that was not open before. -/
theorem C7_one_dial_error_passed_on_connection_closed (env : Env)
    (ip username password : String) (w : World) :
    dialCount (ConnectToSSH env ip username password w).2.trace = dialCount w.trace + 1 ∧
    ((ConnectToSSH env ip username password w).1 ≠ none ↔
      ∃ e, env.dial w.trace "tcp" (ip ++ ":22")
        ⟨username, [AuthMethod.Password password], InsecureIgnoreHostKey⟩ = .error e) ∧
    (∀ e, env.dial w.trace "tcp" (ip ++ ":22")
        ⟨username, [AuthMethod.Password password], InsecureIgnoreHostKey⟩ = .error e →
      (ConnectToSSH env ip username password w).1 = some e ∧
      closed (ConnectToSSH env ip username password w).2.trace = closed w.trace ∧
      (ConnectToSSH env ip username password w).2.conns = w.conns) ∧
    (∀ c, env.dial w.trace "tcp" (ip ++ ":22")
        ⟨username, [AuthMethod.Password password], InsecureIgnoreHostKey⟩ = .ok c →
      (ConnectToSSH env ip username password w).1 = none ∧
      (ConnectToSSH env ip username password w).2.trace =
        w.trace ++ [Event.dial "tcp" (ip ++ ":22")
          ⟨username, [AuthMethod.Password password], InsecureIgnoreHostKey⟩, Event.close c] ∧
      c ∉ (ConnectToSSH env ip username password w).2.conns ∧
      ∀ x ∈ (ConnectToSSH env ip username password w).2.conns, x ∈ w.conns) := by
  cases h : env.dial w.trace "tcp" (ip ++ ":22")
      ⟨username, [AuthMethod.Password password], InsecureIgnoreHostKey⟩ with
  | error e =>
    rw [connectToSSH_of_dial_error env ip username password w e h]
    simp [World.emit, dialCount, closed, List.filter_append, List.filterMap_append]
  | ok c =>
    rw [connectToSSH_of_dial_ok env ip username password w c h]
    simp [World.emit, connClose, dialCount, List.filter_append]
    intro x hx _
    exact hx

/-- Witness of C7 on a refused dial and on an answered dial. -/
theorem C7_witness :
    ((ConnectToSSH scenarioEnv "10.0.0.5" "root" "x" World.start).1 =
        some ⟨"dial tcp 10.0.0.5:22: connect: connection refused"⟩ ∧
      closed (ConnectToSSH scenarioEnv "10.0.0.5" "root" "x" World.start).2.trace =
        closed World.start.trace ∧
      (ConnectToSSH scenarioEnv "10.0.0.5" "root" "x" World.start).2.conns =
        World.start.conns) ∧
    ((ConnectToSSH reachableEnv "10.0.0.5" "root" "x" World.start).1 = none ∧
      (ConnectToSSH reachableEnv "10.0.0.5" "root" "x" World.start).2.trace =
        World.start.trace ++ [Event.dial "tcp" ("10.0.0.5" ++ ":22")
          ⟨"root", [AuthMethod.Password "x"], InsecureIgnoreHostKey⟩, Event.close 7] ∧
      7 ∉ (ConnectToSSH reachableEnv "10.0.0.5" "root" "x" World.start).2.conns ∧
      ∀ x ∈ (ConnectToSSH reachableEnv "10.0.0.5" "root" "x" World.start).2.conns,
        x ∈ World.start.conns) :=
  ⟨(C7_one_dial_error_passed_on_connection_closed scenarioEnv "10.0.0.5" "root" "x"
      World.start).2.2.1 _ rfl,
   (C7_one_dial_error_passed_on_connection_closed reachableEnv "10.0.0.5" "root" "x"
      World.start).2.2.2 7 rfl⟩

/-! ### The entry logged for a failed connection -/

/-- A text is contained in every text it is the end of. -/
theorem contains_append_right (p s : String) : Contains (p ++ s) s := by
  unfold Contains
  rw [String.data_append]
  exact (List.suffix_append _ _).isInfix

/-- Containment is transitive. -/
theorem contains_trans (s t u : String) (h1 : Contains s t) (h2 : Contains t u) :
    Contains s u :=
  List.IsInfix.trans h2 h1

set_option maxRecDepth 100000 in
/-- C4, as stated, fails: in the scenario of the settings document naming host
10.0.0.5 and user root with no host reachable, the dial is refused and the
one entry the Connect handler adds is the failure text with the message of
the dial error, which does not name the user. -/
theorem C4_counterexample_failure_entry_lacks_username :
    ∃ app : App, mainStartup scenarioEnv World.start = .ok app ∧
      app.ipEntry.Text = "10.0.0.5" ∧ app.usernameEntry.Text = "root" ∧
      (ConnectToSSH scenarioEnv app.ipEntry.Text app.usernameEntry.Text
        app.passwordEntry.Text app.world).1 =
          some ⟨"dial tcp 10.0.0.5:22: connect: connection refused"⟩ ∧
      (connectButtonTapped scenarioEnv app).logEntry.Text =
        app.logEntry.Text ++ "\n" ++
          "Connection failed: dial tcp 10.0.0.5:22: connect: connection refused" ∧
      ¬ Contains "Connection failed: dial tcp 10.0.0.5:22: connect: connection refused"
          "root" ∧
      ¬ Contains (connectButtonTapped scenarioEnv app).logEntry.Text "root" := by
  refine ⟨_, rfl, rfl, rfl, rfl, rfl, by decide, by decide⟩

/-- C4, amended: when the connection attempt fails with error e, the Connect
handler adds one log entry, whose text is the failure prefix followed by the
message of e; the entry contains that message and hence every text the
message contains. -/
theorem C4_failed_connect_logs_error_message (env : Env) (a : App) (e : GoError)
    (h : (ConnectToSSH env a.ipEntry.Text a.usernameEntry.Text a.passwordEntry.Text
      a.world).1 = some e) :
    (connectButtonTapped env a).logEntry =
      UpdateLog a.logEntry ("Connection failed: " ++ e.Error) ∧
    (∀ m : String,
      (connectButtonTapped env a).logEntry.Text = a.logEntry.Text ++ "\n" ++ m ↔
        m = "Connection failed: " ++ e.Error) ∧
    Contains ("Connection failed: " ++ e.Error) e.Error ∧
    ∀ s : String, Contains e.Error s → Contains ("Connection failed: " ++ e.Error) s := by
  have key : (connectButtonTapped env a).logEntry =
      UpdateLog a.logEntry ("Connection failed: " ++ e.Error) := by
    simp only [connectButtonTapped]
    rcases hc : ConnectToSSH env a.ipEntry.Text a.usernameEntry.Text a.passwordEntry.Text
      a.world with ⟨r, w1⟩
    rw [hc] at h
    cases r with
    | none => cases h
    | some e1 =>
      have he : e1 = e := by simpa using h
      subst he
      rfl
  refine ⟨key, ?_, contains_append_right _ _, ?_⟩
  · intro m
    rw [key]
    constructor
    · intro hm
      exact (string_append_left_cancel _ _ _ hm).symm
    · intro hm
      rw [hm]
      rfl
  · intro s hs
    exact contains_trans _ _ _ (contains_append_right _ _) hs

/-- Witness of the amended C4 in the scenario where every dial is refused. -/
theorem C4_witness :
    (connectButtonTapped scenarioEnv
        (appWith "10.0.0.5" "root" "x" "Log output:\n")).logEntry =
      UpdateLog (appWith "10.0.0.5" "root" "x" "Log output:\n").logEntry
        ("Connection failed: " ++
          (GoError.mk "dial tcp 10.0.0.5:22: connect: connection refused").Error) :=
  (C4_failed_connect_logs_error_message scenarioEnv
    (appWith "10.0.0.5" "root" "x" "Log output:\n")
    ⟨"dial tcp 10.0.0.5:22: connect: connection refused"⟩ rfl).1

/-! ### The lines of the log -/

/-- The characters of the log after a run of `UpdateLog` calls. -/
theorem foldl_updateLog_data (ms : List String) (e : Entry) :
    (ms.foldl UpdateLog e).Text.data =
      e.Text.data ++ (ms.map fun m => '\n' :: m.data).flatten := by
  induction ms generalizing e with
  | nil => simp
  | cons m ms ih =>
    rw [List.foldl_cons, ih]
    simp [UpdateLog, Entry.SetText, String.data_append]

/-- Joining pieces with a one-character separator puts the separator in
front of every piece but the first. -/
theorem intercalate_singleton_cons {α : Type} (x : α) (a : List α) (ls : List (List α)) :
    [x].intercalate (a :: ls) = a ++ (ls.map fun l => x :: l).flatten := by
  induction ls generalizing a with
  | nil => simp [List.intercalate]
  | cons b ls ih =>
    have h := ih b
    simp only [List.intercalate] at h ⊢
    rw [List.intersperse_cons_cons, List.flatten_cons, List.flatten_cons, h]
    simp

/-- C5, as stated, fails: after one UpdateLog with the message a on the
initial log entry the lines of the log are the header, an empty line and a,
not the header followed by a alone. -/
theorem C5_counterexample_blank_line_after_header :
    lines (UpdateLog initialLogEntry "a").Text = ["Log output:", "", "a"] ∧
    lines (UpdateLog initialLogEntry "a").Text ≠ ["Log output:", "a"] ∧
    ¬ ∀ ms : List String, (∀ m ∈ ms, '\n' ∉ m.data) →
      lines (ms.foldl UpdateLog initialLogEntry).Text = "Log output:" :: ms := by
  refine ⟨by decide, by decide, ?_⟩
  intro hall
  have h1 := hall ["a"] (by decide)
  revert h1
  decide

/-- C5, amended: starting from the initial log text of main and appending
messages without a newline with UpdateLog, the lines of the log text are the
header line, one empty line, and then exactly the messages in call order,
one per line. -/
theorem C5_log_lines_header_blank_entries (ms : List String)
    (h : ∀ m ∈ ms, '\n' ∉ m.data) :
    initialLogEntry.Text = "Log output:\n" ∧
    lines (ms.foldl UpdateLog initialLogEntry).Text = "Log output:" :: "" :: ms := by
  refine ⟨rfl, ?_⟩
  have hd : (ms.foldl UpdateLog initialLogEntry).Text.data =
      ['\n'].intercalate ("Log output:".data :: [] :: ms.map String.data) := by
    rw [foldl_updateLog_data, intercalate_singleton_cons]
    simp [initialLogEntry, Entry.SetText, List.map_map, Function.comp_def]
  unfold lines
  rw [hd, List.splitOn_intercalate]
  · simp [List.map_map, Function.comp_def]
  · intro l hl
    simp only [List.mem_cons, List.mem_map] at hl
    rcases hl with rfl | rfl | ⟨m, hm, rfl⟩
    · decide
    · simp
    · exact h m hm
  · simp

/-- Witness of the amended C5 on a failed connection followed by a saved log. -/
theorem C5_witness :
    initialLogEntry.Text = "Log output:\n" ∧
    lines (["Connection failed: timeout", "Log saved successfully."].foldl UpdateLog
        initialLogEntry).Text =
      "Log output:" :: "" :: ["Connection failed: timeout", "Log saved successfully."] :=
  C5_log_lines_header_blank_entries ["Connection failed: timeout", "Log saved successfully."]
    (by decide)

/-! ### Decoding of the settings document -/

/-- Assigning one field leaves the other fields as they were. -/
theorem settings_get_set_of_ne (st : Settings) (g f : Field) (v : String) (h : g ≠ f) :
    (st.set g v).get f = st.get f := by
  cases g <;> cases f <;> first | rfl | exact absurd rfl h

/-- Assigning a field makes it read back the assigned value. -/
theorem settings_get_set_same (st : Settings) (f : Field) (v : String) :
    (st.set f v).get f = v := by
  cases f <;> rfl

/-- A member that is not stored into field f leaves f as it was. -/
theorem storeMember_get_of_ne (st : Settings × Option GoError) (m : String × JSON) (f : Field)
    (h : fieldFor m.1 ≠ some f) : (storeMember st m).1.get f = st.1.get f := by
  unfold storeMember
  cases hk : fieldFor m.1 with
  | none => rfl
  | some g =>
    have hg : g ≠ f := fun hgf => h (by rw [hk, hgf])
    cases m.2 <;> simp [settings_get_set_of_ne _ _ _ _ hg]

/-- Members none of which is stored into field f leave f as it was. -/
theorem foldl_storeMember_get_of_ne (ms : List (String × JSON)) (st : Settings × Option GoError)
    (f : Field) (h : ∀ m ∈ ms, fieldFor m.1 ≠ some f) :
    (ms.foldl storeMember st).1.get f = st.1.get f := by
  induction ms generalizing st with
  | nil => rfl
  | cons m ms ih =>
    rw [List.foldl_cons, ih _ (fun x hx => h x (List.mem_cons_of_mem _ hx))]
    exact storeMember_get_of_ne st m f (h m (List.mem_cons_self _ _))

/-- A member that is skipped or holds a string raises no type error. -/
theorem storeMember_no_error (st : Settings × Option GoError) (m : String × JSON)
    (hst : st.2 = none) (hm : fieldFor m.1 ≠ none → ∃ s, m.2 = JSON.string s) :
    (storeMember st m).2 = none := by
  unfold storeMember
  cases hk : fieldFor m.1 with
  | none => exact hst
  | some g =>
    obtain ⟨s, hs⟩ := hm (by rw [hk]; simp)
    simp [hs, hst]

/-- Members that are skipped or hold strings raise no type error. -/
theorem foldl_storeMember_no_error (ms : List (String × JSON))
    (st : Settings × Option GoError) (hst : st.2 = none)
    (hm : ∀ m ∈ ms, fieldFor m.1 ≠ none → ∃ s, m.2 = JSON.string s) :
    (ms.foldl storeMember st).2 = none := by
  induction ms generalizing st with
  | nil => exact hst
  | cons m ms ih =>
    rw [List.foldl_cons]
    exact ih _ (storeMember_no_error st m hst (hm m (List.mem_cons_self _ _)))
      (fun x hx => hm x (List.mem_cons_of_mem _ hx))

/-- The value of LoadSettings on a file that is read and parses to an object. -/
theorem loadSettings_of_object (env : Env) (filename : String) (w : World) (data : ByteArray)
    (members : List (String × JSON))
    (hread : env.readFile filename = .ok data)
    (hparse : env.parseJSON data = .ok (JSON.object members)) :
    (LoadSettings env filename w).1 = members.foldl storeMember (⟨"", "", ""⟩, none) := by
  simp [LoadSettings, hread, jsonUnmarshal, hparse, decodeSettings]

/-- C8, as stated, fails: the document whose only member has the key IP in
capitals and a string value has no member `ip`, yet LoadSettings stores that
value in the IP field instead of leaving it empty. -/
theorem C8_counterexample_capital_key_is_stored :
    capitalKeyEnv.readFile "settings.json" =
      .ok "\x7b\x22IP\x22:\x22192.168.1.1\x22\x7d".toUTF8 ∧
    capitalKeyEnv.parseJSON "\x7b\x22IP\x22:\x22192.168.1.1\x22\x7d".toUTF8 =
      .ok (JSON.object [("IP", JSON.string "192.168.1.1")]) ∧
    (∀ (f : Field) (v : JSON), (f.tag, v) ∉ [("IP", JSON.string "192.168.1.1")]) ∧
    (LoadSettings capitalKeyEnv "settings.json" World.start).1 =
      (⟨"192.168.1.1", "", ""⟩, none) ∧
    (LoadSettings capitalKeyEnv "settings.json" World.start).1.1.IP ≠ "" := by
  refine ⟨rfl, rfl, ?_, rfl, by decide⟩
  intro f v
  cases f <;> simp [Field.tag]

/-- C8, amended: for a settings file that is read and parses to a JSON object
in which every member whose key matches one of the tags `ip`, `username`,
`password`, exactly or up to letter case, holds a string, LoadSettings
returns no error; a field whose tag no member matches is the empty string,
and a field whose tag is matched holds the string of the last member that
matches it.  Each tag matches its own field. -/
theorem C8_loadSettings_fields_of_document (env : Env) (filename : String) (w : World)
    (data : ByteArray) (members : List (String × JSON))
    (hread : env.readFile filename = .ok data)
    (hparse : env.parseJSON data = .ok (JSON.object members))
    (hwf : ∀ m ∈ members, fieldFor m.1 ≠ none → ∃ s, m.2 = JSON.string s) :
    (LoadSettings env filename w).1.2 = none ∧
    (∀ f : Field, (∀ m ∈ members, fieldFor m.1 ≠ some f) →
      (LoadSettings env filename w).1.1.get f = "") ∧
    (∀ (f : Field) (before after : List (String × JSON)) (k s : String),
      members = before ++ (k, JSON.string s) :: after → fieldFor k = some f →
      (∀ m ∈ after, fieldFor m.1 ≠ some f) →
      (LoadSettings env filename w).1.1.get f = s) ∧
    (∀ f : Field, fieldFor f.tag = some f) := by
  rw [loadSettings_of_object env filename w data members hread hparse]
  refine ⟨foldl_storeMember_no_error _ _ rfl hwf, ?_, ?_, ?_⟩
  · intro f hf
    rw [foldl_storeMember_get_of_ne _ _ f hf]
    cases f <;> rfl
  · intro f before after k s hmem hk hafter
    rw [hmem, List.foldl_append, List.foldl_cons, foldl_storeMember_get_of_ne _ _ f hafter]
    simp [storeMember, hk, settings_get_set_same]
  · intro f
    cases f <;> decide

/-- Witness of the amended C8 on the empty object: no error and three empty fields. -/
theorem C8_witness :
    (LoadSettings emptyDocEnv "settings.json" World.start).1.2 = none ∧
    ∀ f : Field, (LoadSettings emptyDocEnv "settings.json" World.start).1.1.get f = "" :=
  have h := C8_loadSettings_fields_of_document emptyDocEnv "settings.json" World.start
    "\x7b\x7d".toUTF8 [] rfl rfl (by simp)
  ⟨h.1, fun f => h.2.1 f (by simp)⟩

/-! ### Failures of LoadSettings -/

/-- Decoding an object leaves in every field either the value it had or the
string of a member of the object whose key matches the field. -/
theorem foldl_storeMember_get_origin (ms : List (String × JSON))
    (st : Settings × Option GoError) (f : Field) :
    (ms.foldl storeMember st).1.get f = st.1.get f ∨
    ∃ k s, (k, JSON.string s) ∈ ms ∧ fieldFor k = some f ∧
      (ms.foldl storeMember st).1.get f = s := by
  induction ms generalizing st with
  | nil => exact Or.inl rfl
  | cons m ms ih =>
    rw [List.foldl_cons]
    rcases ih (storeMember st m) with h | ⟨k, s, hmem, hk, hs⟩
    · rw [h]
      by_cases hm : fieldFor m.1 = some f
      · rcases m with ⟨k, v⟩
        cases v with
        | string s =>
          right
          refine ⟨k, s, List.mem_cons_self _ _, hm, ?_⟩
          simp only [] at hm
          simp [storeMember, hm, settings_get_set_same]
        | null => left; simp only [] at hm; simp [storeMember, hm]
        | bool b => left; simp only [] at hm; simp [storeMember, hm]
        | number n => left; simp only [] at hm; simp [storeMember, hm]
        | array xs => left; simp only [] at hm; simp [storeMember, hm]
        | object xs => left; simp only [] at hm; simp [storeMember, hm]
      · left
        exact storeMember_get_of_ne st m f hm
    · right
      exact ⟨k, s, List.mem_cons_of_mem _ hmem, hk, hs⟩

/-- C9, as stated, fails: the settings file holding a number for `ip` and the
string root for `username` is read and is valid JSON, the decoder fails on
the number, and LoadSettings returns that error together with a record whose
Username is root, not a record with three empty fields. -/
theorem C9_counterexample_decoder_error_with_filled_record :
    mistypedEnv.readFile "settings.json" =
      .ok "\x7b\x22ip\x22:5,\x22username\x22:\x22root\x22\x7d".toUTF8 ∧
    (LoadSettings mistypedEnv "settings.json" World.start).1.2 ≠ none ∧
    (LoadSettings mistypedEnv "settings.json" World.start).1.1 = ⟨"", "root", ""⟩ ∧
    (LoadSettings mistypedEnv "settings.json" World.start).1.1 ≠ ⟨"", "", ""⟩ ∧
    ¬ ∀ (env : Env) (filename : String) (w : World) (data : ByteArray),
      env.readFile filename = .ok data → (LoadSettings env filename w).1.2 ≠ none →
      (LoadSettings env filename w).1.1 = ⟨"", "", ""⟩ := by
  refine ⟨rfl, by decide, rfl, by decide, ?_⟩
  intro hall
  have h := hall mistypedEnv "settings.json" World.start _ rfl (by decide)
  revert h
  decide

/-- C9, amended: when reading the file fails, LoadSettings returns the read
error as it is, with a record whose three fields are empty, and does not call
the decoder.  When the file is read, LoadSettings returns what the decoder
returns: for contents that are not valid JSON the syntax error with three
empty fields; for valid JSON that is not an object three empty fields; for an
object every field is empty or holds the string of a member of the document
whose key matches it, also when the decoder returns a type error. -/
theorem C9_loadSettings_failures (env : Env) (filename : String) (w : World) :
    (∀ e, env.readFile filename = .error e →
      (LoadSettings env filename w).1 = (⟨"", "", ""⟩, some e) ∧
      (LoadSettings env filename w).2.trace = w.trace ++ [Event.readFile filename] ∧
      unmarshalCount (LoadSettings env filename w).2.trace = unmarshalCount w.trace) ∧
    (∀ data, env.readFile filename = .ok data →
      (LoadSettings env filename w).1 = jsonUnmarshal env data ⟨"", "", ""⟩ ∧
      (LoadSettings env filename w).2.trace =
        w.trace ++ [Event.readFile filename, Event.unmarshal data]) ∧
    (∀ data e, env.readFile filename = .ok data → env.parseJSON data = .error e →
      (LoadSettings env filename w).1 = (⟨"", "", ""⟩, some e)) ∧
    (∀ data doc, env.readFile filename = .ok data → env.parseJSON data = .ok doc →
      (∀ members, doc ≠ JSON.object members) →
      (LoadSettings env filename w).1.1 = ⟨"", "", ""⟩) ∧
    (∀ data members, env.readFile filename = .ok data →
      env.parseJSON data = .ok (JSON.object members) →
      ∀ f : Field, (LoadSettings env filename w).1.1.get f = "" ∨
        ∃ k s, (k, JSON.string s) ∈ members ∧ fieldFor k = some f ∧
          (LoadSettings env filename w).1.1.get f = s) := by
  refine ⟨?_, ?_, ?_, ?_, ?_⟩
  · intro e h
    simp [LoadSettings, h, World.emit, unmarshalCount, List.filter_append]
  · intro data h
    simp [LoadSettings, h, World.emit]
  · intro data e h hp
    simp [LoadSettings, h, jsonUnmarshal, hp]
  · intro data doc h hp hdoc
    cases doc with
    | object members => exact absurd rfl (hdoc members)
    | null => simp [LoadSettings, h, jsonUnmarshal, hp, decodeSettings]
    | bool b => simp [LoadSettings, h, jsonUnmarshal, hp, decodeSettings]
    | number n => simp [LoadSettings, h, jsonUnmarshal, hp, decodeSettings]
    | string s => simp [LoadSettings, h, jsonUnmarshal, hp, decodeSettings]
    | array xs => simp [LoadSettings, h, jsonUnmarshal, hp, decodeSettings]
  · intro data members h hp f
    rw [loadSettings_of_object env filename w data members h hp]
    rcases foldl_storeMember_get_origin members (⟨"", "", ""⟩, none) f with h1 | h1
    · left
      rw [h1]
      cases f <;> rfl
    · exact Or.inr h1

/-- Witness of the amended C9 on a missing file, on a file that is cut short
and on a file with a number where a string is expected. -/
theorem C9_witness :
    ((LoadSettings missingFileEnv "settings.json" World.start).1 =
        (⟨"", "", ""⟩, some ⟨"open settings.json: no such file or directory"⟩) ∧
      (LoadSettings missingFileEnv "settings.json" World.start).2.trace =
        World.start.trace ++ [Event.readFile "settings.json"] ∧
      unmarshalCount (LoadSettings missingFileEnv "settings.json" World.start).2.trace =
        unmarshalCount World.start.trace) ∧
    (LoadSettings malformedEnv "settings.json" World.start).1 =
        (⟨"", "", ""⟩, some ⟨"unexpected end of JSON input"⟩) ∧
    ∀ f : Field, (LoadSettings mistypedEnv "settings.json" World.start).1.1.get f = "" ∨
      ∃ k s, (k, JSON.string s) ∈ [("ip", JSON.number "5"), ("username", JSON.string "root")] ∧
        fieldFor k = some f ∧
        (LoadSettings mistypedEnv "settings.json" World.start).1.1.get f = s :=
  ⟨(C9_loadSettings_failures missingFileEnv "settings.json" World.start).1 _ rfl,
   (C9_loadSettings_failures malformedEnv "settings.json" World.start).2.2.1 _ _ rfl rfl,
   (C9_loadSettings_failures mistypedEnv "settings.json" World.start).2.2.2.2 _ _ rfl rfl⟩

end GoConfig
